import Mathlib

/-!
Shallow embedding of the teacher availability and time-accounting subsystem of
`src/backend/server.js` (Teacher-Availability-App).

Modelling conventions:
* JS `Date` instants are integers counting milliseconds (`Int`).
* JS numbers stored in the ledger (`totalAvailableTime`, seconds, produced by a
  division by 1000) are exact rationals (`Rat`).
* The MongoDB collections are lists of documents; `findOne` is `List.find?`,
  `findOneAndUpdate` with `$inc` and `upsert:true` is `upsertInc` below, and
  `teacher.save()` replaces the matching document in place.
* Fallibility of the two `await`ed writes inside the status route is modelled by
  two boolean oracles `ledgerOk` and `saveOk`; a failed `await` throws, reaching
  the route's catch block (HTTP 500) with everything after the failing statement
  unexecuted.
* A single request is one instant `now`: the `new Date()` calls inside one
  handler are identified.
-/

namespace TeacherApp

/-- Milliseconds in a calendar day. -/
def msPerDay : Int := 86400000

/-- Model of date-fns `startOfDay`: the midnight instant of the calendar day
containing `t` (floor to a multiple of `msPerDay`). -/
def startOfDay (t : Int) : Int := msPerDay * (t.fdiv msPerDay)

/-- Teacher document (server.js lines 38-47). -/
structure Teacher where
  id : Nat
  name : String
  email : String
  password : String
  phone : String
  roomno : String
  isAvailable : Bool
  lastAvailableTimestamp : Option Int
deriving DecidableEq

/-- TimeRecord document (server.js lines 60-65): per-teacher per-day
accumulated available time in seconds (a JS number, possibly fractional). -/
structure TimeRecord where
  teacher : Nat
  date : Int
  totalAvailableTime : Rat
deriving DecidableEq

/-- Status-only view of a teacher, as produced by `.select('-password')`
(server.js lines 141 and 175): every field except the password. -/
structure TeacherView where
  id : Nat
  name : String
  email : String
  phone : String
  roomno : String
  isAvailable : Bool
  lastAvailableTimestamp : Option Int
deriving DecidableEq

/-- Projection dropping the password field. -/
def viewOf (t : Teacher) : TeacherView :=
  { id := t.id, name := t.name, email := t.email, phone := t.phone,
    roomno := t.roomno, isAvailable := t.isAvailable,
    lastAvailableTimestamp := t.lastAvailableTimestamp }

/-- The persistent state: the two MongoDB collections. -/
structure Store where
  teachers : List Teacher
  records : List TimeRecord
deriving DecidableEq

/-- Key predicate of the ledger query `{ teacher: teacherId, date: today }`. -/
def recordKeyMatches (tid : Nat) (day : Int) (r : TimeRecord) : Bool :=
  r.teacher == tid && r.date == day

/-- `TimeRecord.findOne({ teacher, date })`. -/
def findRecord (recs : List TimeRecord) (tid : Nat) (day : Int) : Option TimeRecord :=
  recs.find? (recordKeyMatches tid day)

/-- Committed total for a key, `0` when no record exists (server.js line 191). -/
def ledgerGet (recs : List TimeRecord) (tid : Nat) (day : Int) : Rat :=
  match findRecord recs tid day with
  | some r => r.totalAvailableTime
  | none => 0

/-- Pointwise effect of the `$inc` update: add `delta` to a document's total
when its key matches, leave it unchanged otherwise. -/
def incRecord (tid : Nat) (day : Int) (delta : Rat) (r : TimeRecord) : TimeRecord :=
  if recordKeyMatches tid day r then
    { r with totalAvailableTime := r.totalAvailableTime + delta }
  else r

/-- `TimeRecord.findOneAndUpdate(key, { $inc: { totalAvailableTime: delta } },
{ upsert: true })` (server.js lines 162-166): increment the matching document,
or insert a document whose defaulted total `0` is incremented by `delta`. -/
def upsertInc (recs : List TimeRecord) (tid : Nat) (day : Int) (delta : Rat) :
    List TimeRecord :=
  if (findRecord recs tid day).isSome then
    recs.map (incRecord tid day delta)
  else
    recs ++ [{ teacher := tid, date := day, totalAvailableTime := 0 + delta }]

/-- `Teacher.findById(teacherId)`. -/
def findTeacher (ts : List Teacher) (tid : Nat) : Option Teacher :=
  ts.find? (fun t => t.id == tid)

/-- `teacher.save()`: replace the document with the same id. -/
def saveTeacher (ts : List Teacher) (t' : Teacher) : List Teacher :=
  ts.map (fun t => if t.id == t'.id then t' else t)

/-- Session duration committed on a downward transition (server.js line 158):
`(new Date() - new Date(teacher.lastAvailableTimestamp)) / 1000`, an exact
wall-clock difference in seconds with no clamping. -/
def sessionDuration (now ts : Int) : Rat := ((now - ts : Int) : Rat) / 1000

/-- Messages the server emits over socket.io. -/
inductive ServerEmit where
  | statusUpdate (roster : List TeacherView)
deriving DecidableEq

/-- Outcome of the `PUT /api/teachers/status` route: HTTP status, resulting
store, socket emissions, and response body. -/
structure PutStatusResult where
  status : Nat
  store : Store
  emits : List ServerEmit
  body : Option Teacher
deriving DecidableEq

/-- In-place update of the teacher document (server.js lines 171-172):
`teacher.isAvailable = isAvailable; teacher.lastAvailableTimestamp =
isAvailable ? new Date() : null`. -/
def updatedTeacher (teacher : Teacher) (desired : Bool) (now : Int) : Teacher :=
  { teacher with
    isAvailable := desired,
    lastAvailableTimestamp := if desired then some now else none }

/-- Tail of the status route after the time-tracking block (server.js lines
170-178): update the teacher's status and timestamp, save, re-read the roster
without passwords, broadcast it, and respond with the updated teacher. A
failing `save` throws to the catch block: HTTP 500, no broadcast, the ledger
write (already awaited) kept. -/
def afterLedger (s : Store) (desired : Bool) (now : Int) (saveOk : Bool)
    (teacher : Teacher) (recs : List TimeRecord) : PutStatusResult :=
  let teacher' : Teacher := updatedTeacher teacher desired now
  if saveOk then
    let s' : Store := { teachers := saveTeacher s.teachers teacher', records := recs }
    { status := 200, store := s',
      emits := [ServerEmit.statusUpdate (s'.teachers.map viewOf)],
      body := some teacher' }
  else
    { status := 500, store := { s with records := recs }, emits := [], body := none }

/-- The `PUT /api/teachers/status` route (server.js lines 148-184). On a
transition from available to unavailable with a session start recorded, the
elapsed session seconds are committed to the ledger first; a failing ledger
write throws before anything else happened (HTTP 500, store unchanged). -/
def putStatus (s : Store) (tid : Nat) (desired : Bool) (now : Int)
    (ledgerOk saveOk : Bool) : PutStatusResult :=
  match findTeacher s.teachers tid with
  | none => { status := 404, store := s, emits := [], body := none }
  | some teacher =>
    if teacher.isAvailable && !desired && teacher.lastAvailableTimestamp.isSome then
      if ledgerOk then
        afterLedger s desired now saveOk teacher
          (upsertInc s.records tid (startOfDay now)
            (sessionDuration now (teacher.lastAvailableTimestamp.getD 0)))
      else
        { status := 500, store := s, emits := [], body := none }
    else
      afterLedger s desired now saveOk teacher s.records

/-- The `GET /api/teachers/my-time` route (server.js lines 187-195): committed
total for (caller, today), `0` when no record exists. -/
def getMyTime (s : Store) (tid : Nat) (now : Int) : Rat :=
  ledgerGet s.records tid (startOfDay now)

/-- The `GET /api/teachers` roster route (server.js lines 139-146). -/
def listTeachersRoute (s : Store) : List TeacherView :=
  s.teachers.map viewOf

/-- The `POST /api/auth/register` route (server.js lines 83-107), password
hashing abstracted away: reject missing fields or a duplicate email, otherwise
append a teacher whose `isAvailable` defaults to false and whose
`lastAvailableTimestamp` is unset. Returns the new store and HTTP status. -/
def register (s : Store) (newId : Nat)
    (name email password phone roomno : String) : Store × Nat :=
  if name = "" || email = "" || password = "" || phone = "" || roomno = "" then
    (s, 400)
  else if s.teachers.any (fun t => t.email == email) then
    (s, 400)
  else
    ({ s with teachers := s.teachers ++
        [{ id := newId, name := name, email := email, password := password,
           phone := phone, roomno := roomno,
           isAvailable := false, lastAvailableTimestamp := none }] }, 201)

/-- Socket connection handler (server.js lines 329-342): it logs, registers a
`joinRoom` listener and a `disconnect` listener, and emits no message to the
connecting socket. -/
def onConnectionEmits (_s : Store) : List ServerEmit := []

/-- The `joinRoom` listener (server.js lines 334-337): the socket joins the
room named after the teacher id. -/
def joinRoom (rooms : List (Nat × Nat)) (socketId tid : Nat) : List (Nat × Nat) :=
  (socketId, tid) :: rooms

/-- Teacher-state invariant of the spec: the session-start timestamp is present
exactly when the teacher is available. -/
def teacherInv (t : Teacher) : Prop :=
  t.lastAvailableTimestamp.isSome = t.isAvailable

/-- At most one ledger record per (teacher, day) key. -/
def keysUnique (recs : List TimeRecord) : Prop :=
  recs.Pairwise (fun a b => ¬(a.teacher = b.teacher ∧ a.date = b.date))

theorem recordKeyMatches_incRecord (tid tid2 : Nat) (day day2 : Int) (delta : Rat)
    (r : TimeRecord) :
    recordKeyMatches tid2 day2 (incRecord tid day delta r) = recordKeyMatches tid2 day2 r := by
  unfold incRecord
  split <;> rfl

theorem incRecord_teacher (tid : Nat) (day : Int) (delta : Rat) (r : TimeRecord) :
    (incRecord tid day delta r).teacher = r.teacher := by
  unfold incRecord
  split <;> rfl

theorem incRecord_date (tid : Nat) (day : Int) (delta : Rat) (r : TimeRecord) :
    (incRecord tid day delta r).date = r.date := by
  unfold incRecord
  split <;> rfl

theorem findRecord_map_incRecord (recs : List TimeRecord) (tid tid2 : Nat)
    (day day2 : Int) (delta : Rat) :
    findRecord (recs.map (incRecord tid day delta)) tid2 day2
      = (findRecord recs tid2 day2).map (incRecord tid day delta) := by
  unfold findRecord
  rw [List.find?_map]
  have hcomp : recordKeyMatches tid2 day2 ∘ incRecord tid day delta
      = recordKeyMatches tid2 day2 :=
    funext fun r => recordKeyMatches_incRecord tid tid2 day day2 delta r
  rw [hcomp]

theorem ledgerGet_upsertInc_self (recs : List TimeRecord) (tid : Nat) (day : Int)
    (delta : Rat) :
    ledgerGet (upsertInc recs tid day delta) tid day = ledgerGet recs tid day + delta := by
  unfold upsertInc
  cases hr : findRecord recs tid day with
  | none =>
      simp only [hr, Option.isSome_none, Bool.false_eq_true, if_false]
      unfold ledgerGet
      unfold findRecord at hr ⊢
      rw [List.find?_append, hr]
      simp [recordKeyMatches, hr]
  | some r =>
      have hpr : recordKeyMatches tid day r = true := List.find?_some hr
      simp only [hr, Option.isSome_some, if_true]
      unfold ledgerGet
      rw [findRecord_map_incRecord, hr]
      simp [incRecord, hpr]

theorem ledgerGet_upsertInc_other (recs : List TimeRecord) (tid tid2 : Nat)
    (day day2 : Int) (delta : Rat) (h : ¬(tid2 = tid ∧ day2 = day)) :
    ledgerGet (upsertInc recs tid day delta) tid2 day2 = ledgerGet recs tid2 day2 := by
  unfold upsertInc
  by_cases hs : (findRecord recs tid day).isSome
  · simp only [hs, if_true]
    unfold ledgerGet
    rw [findRecord_map_incRecord]
    cases hr2 : findRecord recs tid2 day2 with
    | none => simp
    | some r2 =>
        have hpr2 : recordKeyMatches tid2 day2 r2 = true := List.find?_some hr2
        have hne : recordKeyMatches tid day r2 = false := by
          simp only [recordKeyMatches, Bool.and_eq_true, beq_iff_eq] at hpr2
          simp only [recordKeyMatches, hpr2.1, hpr2.2]
          rcases not_and_or.mp h with h1 | h1 <;> simp [h1]
        simp [incRecord, hne]
  · have hcond : (findRecord recs tid day).isSome = false := by
      cases hfr : findRecord recs tid day <;> simp [hfr] at hs ⊢
    simp only [hcond, Bool.false_eq_true, if_false]
    have hnew : recordKeyMatches tid2 day2
        { teacher := tid, date := day, totalAvailableTime := 0 + delta } = false := by
      simp only [recordKeyMatches]
      rcases not_and_or.mp h with h1 | h1 <;> simp [Ne.symm h1]
    unfold ledgerGet findRecord
    rw [List.find?_append]
    have hna : ¬ (recordKeyMatches tid2 day2
        { teacher := tid, date := day, totalAvailableTime := 0 + delta } = true) := by
      rw [hnew]
      decide
    have hsing : List.find? (recordKeyMatches tid2 day2)
        [{ teacher := tid, date := day, totalAvailableTime := 0 + delta }] = none := by
      rw [List.find?_cons_of_neg _ hna, List.find?_nil]
    rw [hsing, Option.or_none]

theorem ledgerGet_upsertInc_mono (recs : List TimeRecord) (tid : Nat) (day : Int)
    (delta : Rat) (hd : 0 ≤ delta) (tid2 : Nat) (day2 : Int) :
    ledgerGet recs tid2 day2 ≤ ledgerGet (upsertInc recs tid day delta) tid2 day2 := by
  by_cases h : tid2 = tid ∧ day2 = day
  · obtain ⟨h1, h2⟩ := h
    subst h1; subst h2
    rw [ledgerGet_upsertInc_self]
    linarith
  · rw [ledgerGet_upsertInc_other recs tid tid2 day day2 delta h]

theorem keysUnique_upsertInc (recs : List TimeRecord) (tid : Nat) (day : Int)
    (delta : Rat) (h : keysUnique recs) :
    keysUnique (upsertInc recs tid day delta) := by
  unfold upsertInc
  by_cases hs : (findRecord recs tid day).isSome
  · simp only [hs, if_true]
    unfold keysUnique at h ⊢
    rw [List.pairwise_map]
    refine h.imp ?_
    intro a b hab
    rw [incRecord_teacher, incRecord_teacher, incRecord_date, incRecord_date]
    exact hab
  · have hcond : (findRecord recs tid day).isSome = false := by
      cases hfr : findRecord recs tid day <;> simp [hfr] at hs ⊢
    simp only [hcond, Bool.false_eq_true, if_false]
    unfold keysUnique at h ⊢
    rw [List.pairwise_append]
    refine ⟨h, by simp, ?_⟩
    intro a ha b hb
    have hnone : findRecord recs tid day = none := by
      cases hfr : findRecord recs tid day
      · rfl
      · rw [hfr] at hs; simp at hs
    have hall := List.find?_eq_none.mp hnone a ha
    simp only [List.mem_singleton] at hb
    subst hb
    simp only [recordKeyMatches, Bool.and_eq_true, beq_iff_eq] at hall
    intro hc
    exact hall ⟨hc.1, hc.2⟩

theorem findTeacher_saveTeacher (ts : List Teacher) (t t' : Teacher)
    (hfind : findTeacher ts t'.id = some t) :
    findTeacher (saveTeacher ts t') t'.id = some t' := by
  induction ts with
  | nil => simp [findTeacher] at hfind
  | cons a as ih =>
      by_cases ha : a.id = t'.id
      · have heq : (a.id == t'.id) = true := by simp [ha]
        have hstep : saveTeacher (a :: as) t' = t' :: saveTeacher as t' := by
          simp only [saveTeacher, List.map_cons, heq, if_true]
        rw [hstep]
        unfold findTeacher
        rw [List.find?_cons_of_pos _ (by simp)]
      · have hne : (a.id == t'.id) = false := by simp [ha]
        have hstep : saveTeacher (a :: as) t' = a :: saveTeacher as t' := by
          simp only [saveTeacher, List.map_cons, hne, Bool.false_eq_true, if_false]
        rw [hstep]
        unfold findTeacher at hfind ⊢
        rw [List.find?_cons_of_neg _ (by simp [ha])] at hfind ⊢
        exact ih hfind

theorem mem_saveTeacher (ts : List Teacher) (t' x : Teacher)
    (hx : x ∈ saveTeacher ts t') : x = t' ∨ x ∈ ts := by
  unfold saveTeacher at hx
  obtain ⟨a, ha, rfl⟩ := List.mem_map.mp hx
  by_cases h : a.id = t'.id
  · left; simp [h]
  · right; simpa [h] using ha

theorem putStatus_notFound (s : Store) (tid : Nat) (desired : Bool) (now : Int)
    (lOk sOk : Bool) (h : findTeacher s.teachers tid = none) :
    putStatus s tid desired now lOk sOk
      = { status := 404, store := s, emits := [], body := none } := by
  unfold putStatus
  rw [h]

theorem putStatus_ledgerPath (s : Store) (tid : Nat) (desired : Bool) (now : Int)
    (sOk : Bool) (t : Teacher)
    (hfind : findTeacher s.teachers tid = some t)
    (hg : (t.isAvailable && !desired && t.lastAvailableTimestamp.isSome) = true) :
    putStatus s tid desired now true sOk
      = afterLedger s desired now sOk t
          (upsertInc s.records tid (startOfDay now)
            (sessionDuration now (t.lastAvailableTimestamp.getD 0))) := by
  unfold putStatus
  rw [hfind]
  simp [hg]

theorem putStatus_ledgerFailPath (s : Store) (tid : Nat) (desired : Bool) (now : Int)
    (sOk : Bool) (t : Teacher)
    (hfind : findTeacher s.teachers tid = some t)
    (hg : (t.isAvailable && !desired && t.lastAvailableTimestamp.isSome) = true) :
    putStatus s tid desired now false sOk
      = { status := 500, store := s, emits := [], body := none } := by
  unfold putStatus
  rw [hfind]
  simp [hg]

theorem putStatus_noLedgerPath (s : Store) (tid : Nat) (desired : Bool) (now : Int)
    (lOk sOk : Bool) (t : Teacher)
    (hfind : findTeacher s.teachers tid = some t)
    (hg : (t.isAvailable && !desired && t.lastAvailableTimestamp.isSome) = false) :
    putStatus s tid desired now lOk sOk = afterLedger s desired now sOk t s.records := by
  unfold putStatus
  rw [hfind]
  simp [hg]

theorem afterLedger_saveOk (s : Store) (desired : Bool) (now : Int) (t : Teacher)
    (recs : List TimeRecord) :
    afterLedger s desired now true t recs
      = { status := 200,
          store := { teachers := saveTeacher s.teachers (updatedTeacher t desired now),
                     records := recs },
          emits := [ServerEmit.statusUpdate
            ((saveTeacher s.teachers (updatedTeacher t desired now)).map viewOf)],
          body := some (updatedTeacher t desired now) } := rfl

theorem afterLedger_saveFail (s : Store) (desired : Bool) (now : Int) (t : Teacher)
    (recs : List TimeRecord) :
    afterLedger s desired now false t recs
      = { status := 500, store := { s with records := recs },
          emits := [], body := none } := rfl

theorem findTeacher_id (ts : List Teacher) (tid : Nat) (t : Teacher)
    (hfind : findTeacher ts tid = some t) : t.id = tid := by
  simpa using List.find?_some hfind

/-- Sample teacher used by concrete witnesses: available since instant 0. -/
def teacherA : Teacher :=
  { id := 1, name := "Asha", email := "asha@example.com", password := "secret",
    phone := "100", roomno := "R1", isAvailable := true,
    lastAvailableTimestamp := some 0 }

/-- Sample store holding only `teacherA` and an empty ledger. -/
def storeA : Store := { teachers := [teacherA], records := [] }

/-- C1: for a teacher currently available (with a recorded session start), a
setAvailability call with desiredAvailable = false commits the elapsed session
seconds (now minus lastAvailableTimestamp) via the ledger upsert to the record
keyed by (teacherId, calendar day containing now) - creating a zero-initialized
record incremented by the delta when the key is absent, incrementing the
existing record otherwise - then sets isAvailable = false, clears
lastAvailableTimestamp, and returns the updated teacher. -/
theorem C1_downward_commits_and_flips (s : Store) (tid : Nat) (now ts : Int)
    (t : Teacher)
    (hfind : findTeacher s.teachers tid = some t)
    (havail : t.isAvailable = true)
    (hts : t.lastAvailableTimestamp = some ts) :
    (putStatus s tid false now true true).status = 200 ∧
    ledgerGet (putStatus s tid false now true true).store.records tid (startOfDay now)
      = ledgerGet s.records tid (startOfDay now) + sessionDuration now ts ∧
    (findRecord s.records tid (startOfDay now) = none →
      (putStatus s tid false now true true).store.records
        = s.records ++ [{ teacher := tid, date := startOfDay now,
                          totalAvailableTime := 0 + sessionDuration now ts }]) ∧
    (putStatus s tid false now true true).body = some (updatedTeacher t false now) ∧
    (updatedTeacher t false now).isAvailable = false ∧
    (updatedTeacher t false now).lastAvailableTimestamp = none ∧
    findTeacher (putStatus s tid false now true true).store.teachers tid
      = some (updatedTeacher t false now) := by
  have hg : (t.isAvailable && !false && t.lastAvailableTimestamp.isSome) = true := by
    simp [havail, hts]
  have hps := putStatus_ledgerPath s tid false now true t hfind hg
  rw [hts] at hps
  simp only [Option.getD_some] at hps
  rw [afterLedger_saveOk] at hps
  have hid : t.id = tid := findTeacher_id s.teachers tid t hfind
  have hid' : (updatedTeacher t false now).id = tid := hid
  refine ⟨?_, ?_, ?_, ?_, rfl, rfl, ?_⟩
  · rw [hps]
  · rw [hps]
    exact ledgerGet_upsertInc_self s.records tid (startOfDay now) (sessionDuration now ts)
  · intro hnone
    rw [hps]
    show upsertInc s.records tid (startOfDay now) (sessionDuration now ts) = _
    unfold upsertInc
    rw [hnone]
    simp
  · rw [hps]
  · rw [hps]
    show findTeacher (saveTeacher s.teachers (updatedTeacher t false now)) tid = _
    have hfind' : findTeacher s.teachers (updatedTeacher t false now).id = some t := by
      rw [hid']; exact hfind
    have hsave := findTeacher_saveTeacher s.teachers t (updatedTeacher t false now) hfind'
    rw [hid'] at hsave
    exact hsave

/-- C1 witness: closing a 125-second session of the sample teacher against an
empty ledger. -/
theorem C1_witness :
    (putStatus storeA 1 false 125000 true true).status = 200 ∧
    ledgerGet (putStatus storeA 1 false 125000 true true).store.records 1 (startOfDay 125000)
      = ledgerGet storeA.records 1 (startOfDay 125000) + sessionDuration 125000 0 ∧
    (putStatus storeA 1 false 125000 true true).store.records
      = storeA.records ++ [{ teacher := 1, date := startOfDay 125000,
                             totalAvailableTime := 0 + sessionDuration 125000 0 }] ∧
    (putStatus storeA 1 false 125000 true true).body
      = some (updatedTeacher teacherA false 125000) ∧
    (updatedTeacher teacherA false 125000).isAvailable = false ∧
    (updatedTeacher teacherA false 125000).lastAvailableTimestamp = none ∧
    findTeacher (putStatus storeA 1 false 125000 true true).store.teachers 1
      = some (updatedTeacher teacherA false 125000) :=
  ⟨(C1_downward_commits_and_flips storeA 1 125000 0 teacherA rfl rfl rfl).1,
   (C1_downward_commits_and_flips storeA 1 125000 0 teacherA rfl rfl rfl).2.1,
   (C1_downward_commits_and_flips storeA 1 125000 0 teacherA rfl rfl rfl).2.2.1 rfl,
   (C1_downward_commits_and_flips storeA 1 125000 0 teacherA rfl rfl rfl).2.2.2⟩

/-- C2: when the ledger write fails during an available-to-unavailable
transition, the route aborts before flipping the status: it returns HTTP 500
with the store fully unchanged, so the teacher is still available with its
original timestamp, no broadcast goes out, and no partial commit is
reachable. -/
theorem C2_ledger_failure_aborts (s : Store) (tid : Nat) (now : Int)
    (t : Teacher) (saveOk : Bool)
    (hfind : findTeacher s.teachers tid = some t)
    (havail : t.isAvailable = true)
    (hts : t.lastAvailableTimestamp.isSome = true) :
    (putStatus s tid false now false saveOk).status = 500 ∧
    (putStatus s tid false now false saveOk).store = s ∧
    (putStatus s tid false now false saveOk).emits = [] ∧
    findTeacher (putStatus s tid false now false saveOk).store.teachers tid = some t := by
  have hg : (t.isAvailable && !false && t.lastAvailableTimestamp.isSome) = true := by
    simp [havail, hts]
  have hps := putStatus_ledgerFailPath s tid false now saveOk t hfind hg
  rw [hps]
  exact ⟨rfl, rfl, rfl, hfind⟩

/-- C2 witness: a failing ledger write on the sample teacher leaves the store
untouched and returns HTTP 500. -/
theorem C2_witness :
    (putStatus storeA 1 false 125000 false true).status = 500 ∧
    (putStatus storeA 1 false 125000 false true).store = storeA ∧
    (putStatus storeA 1 false 125000 false true).emits = [] ∧
    findTeacher (putStatus storeA 1 false 125000 false true).store.teachers 1
      = some teacherA :=
  C2_ledger_failure_aborts storeA 1 125000 teacherA true rfl rfl rfl

/-- C10: a teacher stored as available but with no lastAvailableTimestamp is
transitioned to unavailable without any ledger write (zero seconds recorded):
the call still succeeds with HTTP 200, flips isAvailable to false, and keeps
lastAvailableTimestamp cleared - even if the ledger backend would fail. -/
theorem C10_missing_timestamp_skips_ledger (s : Store) (tid : Nat) (now : Int)
    (t : Teacher) (ledgerOk : Bool)
    (hfind : findTeacher s.teachers tid = some t)
    (havail : t.isAvailable = true)
    (hts : t.lastAvailableTimestamp = none) :
    (putStatus s tid false now ledgerOk true).status = 200 ∧
    (putStatus s tid false now ledgerOk true).store.records = s.records ∧
    (putStatus s tid false now ledgerOk true).body
      = some (updatedTeacher t false now) ∧
    (updatedTeacher t false now).isAvailable = false ∧
    (updatedTeacher t false now).lastAvailableTimestamp = none ∧
    findTeacher (putStatus s tid false now ledgerOk true).store.teachers tid
      = some (updatedTeacher t false now) := by
  have hg : (t.isAvailable && !false && t.lastAvailableTimestamp.isSome) = false := by
    simp [havail, hts]
  have hps := putStatus_noLedgerPath s tid false now ledgerOk true t hfind hg
  rw [afterLedger_saveOk] at hps
  have hid : t.id = tid := findTeacher_id s.teachers tid t hfind
  have hid' : (updatedTeacher t false now).id = tid := hid
  refine ⟨?_, ?_, ?_, rfl, rfl, ?_⟩
  · rw [hps]
  · rw [hps]
  · rw [hps]
  · rw [hps]
    show findTeacher (saveTeacher s.teachers (updatedTeacher t false now)) tid = _
    have hfind' : findTeacher s.teachers (updatedTeacher t false now).id = some t := by
      rw [hid']; exact hfind
    have hsave := findTeacher_saveTeacher s.teachers t (updatedTeacher t false now) hfind'
    rw [hid'] at hsave
    exact hsave

/-- Sample teacher stored as available but with no session-start timestamp. -/
def teacherNoTs : Teacher :=
  { id := 5, name := "Noor", email := "noor@example.com", password := "secret",
    phone := "105", roomno := "R5", isAvailable := true,
    lastAvailableTimestamp := none }

/-- Sample store holding only `teacherNoTs`. -/
def storeNoTs : Store := { teachers := [teacherNoTs], records := [] }

theorem teacherInv_afterLedger (s : Store) (desired : Bool) (now : Int)
    (saveOk : Bool) (t : Teacher) (recs : List TimeRecord)
    (hinv : ∀ y ∈ s.teachers, teacherInv y)
    (x : Teacher) (hx : x ∈ (afterLedger s desired now saveOk t recs).store.teachers) :
    teacherInv x := by
  cases saveOk with
  | true =>
      rw [afterLedger_saveOk] at hx
      rcases mem_saveTeacher s.teachers (updatedTeacher t desired now) x hx with h | h
      · subst h
        unfold teacherInv updatedTeacher
        cases desired <;> rfl
      · exact hinv x h
  | false =>
      rw [afterLedger_saveFail] at hx
      exact hinv x hx

/-- C5: the invariant "lastAvailableTimestamp is present exactly when
isAvailable is true" is preserved by every setAvailability call (any outcome of
the two fallible writes) and by registration, which creates teachers
unavailable with no timestamp. -/
theorem C5_timestamp_iff_available (s : Store) (tid : Nat) (desired : Bool)
    (now : Int) (ledgerOk saveOk : Bool) (newId : Nat)
    (nm em pw ph rm : String)
    (hinv : ∀ t ∈ s.teachers, teacherInv t) :
    (∀ t ∈ (putStatus s tid desired now ledgerOk saveOk).store.teachers, teacherInv t) ∧
    (∀ t ∈ (register s newId nm em pw ph rm).1.teachers, teacherInv t) := by
  constructor
  · intro x hx
    cases hfind : findTeacher s.teachers tid with
    | none =>
        rw [putStatus_notFound s tid desired now ledgerOk saveOk hfind] at hx
        exact hinv x hx
    | some t =>
        by_cases hg : (t.isAvailable && !desired && t.lastAvailableTimestamp.isSome) = true
        · cases ledgerOk with
          | true =>
              rw [putStatus_ledgerPath s tid desired now saveOk t hfind hg] at hx
              exact teacherInv_afterLedger s desired now saveOk t _ hinv x hx
          | false =>
              rw [putStatus_ledgerFailPath s tid desired now saveOk t hfind hg] at hx
              exact hinv x hx
        · simp only [Bool.not_eq_true] at hg
          rw [putStatus_noLedgerPath s tid desired now ledgerOk saveOk t hfind hg] at hx
          exact teacherInv_afterLedger s desired now saveOk t _ hinv x hx
  · intro x hx
    unfold register at hx
    split at hx
    · exact hinv x hx
    · split at hx
      · exact hinv x hx
      · rcases List.mem_append.mp hx with h | h
        · exact hinv x h
        · simp only [List.mem_singleton] at h
          subst h
          rfl

/-- C5 witness: the invariant holds after an upward transition of the sample
teacher and after a registration into the sample store. -/
theorem C5_witness :
    (∀ t ∈ (putStatus storeA 1 true 50 true true).store.teachers, teacherInv t) ∧
    (∀ t ∈ (register storeA 9 "Nia" "nia@example.com" "pw" "109" "R9").1.teachers,
      teacherInv t) :=
  C5_timestamp_iff_available storeA 1 true 50 true true 9
    "Nia" "nia@example.com" "pw" "109" "R9"
    (by intro t ht
        rcases List.mem_singleton.mp ht with rfl
        rfl)

/-- C10 witness: the timestamp-less available teacher is flipped to unavailable
with no ledger write, even with a failing ledger backend. -/
theorem C10_witness :
    (putStatus storeNoTs 5 false 7000 false true).status = 200 ∧
    (putStatus storeNoTs 5 false 7000 false true).store.records = storeNoTs.records ∧
    (putStatus storeNoTs 5 false 7000 false true).body
      = some (updatedTeacher teacherNoTs false 7000) ∧
    (updatedTeacher teacherNoTs false 7000).isAvailable = false ∧
    (updatedTeacher teacherNoTs false 7000).lastAvailableTimestamp = none ∧
    findTeacher (putStatus storeNoTs 5 false 7000 false true).store.teachers 5
      = some (updatedTeacher teacherNoTs false 7000) :=
  C10_missing_timestamp_skips_ledger storeNoTs 5 7000 teacherNoTs false rfl rfl rfl

/-- Sample teacher starting out unavailable. -/
def teacherU : Teacher :=
  { id := 3, name := "Uma", email := "uma@example.com", password := "secret",
    phone := "103", roomno := "R3", isAvailable := false,
    lastAvailableTimestamp := none }

/-- Sample store holding only `teacherU`. -/
def storeU : Store := { teachers := [teacherU], records := [] }

/-- Store after `teacherU` turns available at instant 0. -/
def storeU1 : Store := (putStatus storeU 3 true 0 true true).store

/-- The available `teacherU` as stored in `storeU1`. -/
def teacherU1 : Teacher := updatedTeacher teacherU true 0

/-- C4 counterexample: after setAvailability(true) at t = 0, a second
setAvailability(true) at t = 100 performs no ledger write but RESETS
lastAvailableTimestamp from 0 to 100, contradicting the claim that it is left
unchanged by a repeated call. -/
theorem C4_counterexample :
    (putStatus storeU1 3 true 100 true true).store.records = storeU1.records ∧
    findTeacher storeU1.teachers 3 = some teacherU1 ∧
    teacherU1.lastAvailableTimestamp = some 0 ∧
    findTeacher (putStatus storeU1 3 true 100 true true).store.teachers 3
      = some (updatedTeacher teacherU1 true 100) ∧
    (updatedTeacher teacherU1 true 100).lastAvailableTimestamp = some 100 ∧
    (100 : Int) ≠ 0 := by
  refine ⟨rfl, rfl, rfl, rfl, rfl, by decide⟩

/-- C4 amended: calling setAvailability with the teacher's current status
twice in a row performs no ledger write on the second call; with
desiredAvailable = false the timestamp stays cleared, but with
desiredAvailable = true the second call resets lastAvailableTimestamp to the
second call's time instead of leaving it unchanged. -/
theorem C4_amended_idempotence (s : Store) (tid : Nat) (desired : Bool)
    (now : Int) (ledgerOk saveOk : Bool) (t : Teacher)
    (hfind : findTeacher s.teachers tid = some t)
    (hsame : t.isAvailable = desired) :
    (putStatus s tid desired now ledgerOk saveOk).store.records = s.records ∧
    (saveOk = true →
      findTeacher (putStatus s tid desired now ledgerOk saveOk).store.teachers tid
        = some (updatedTeacher t desired now)) ∧
    (desired = false → (updatedTeacher t desired now).lastAvailableTimestamp = none) ∧
    (desired = true → (updatedTeacher t desired now).lastAvailableTimestamp = some now) := by
  have hg : (t.isAvailable && !desired && t.lastAvailableTimestamp.isSome) = false := by
    rw [hsame]
    cases desired <;> simp
  have hps := putStatus_noLedgerPath s tid desired now ledgerOk saveOk t hfind hg
  have hid : t.id = tid := findTeacher_id s.teachers tid t hfind
  have hid' : (updatedTeacher t desired now).id = tid := hid
  refine ⟨?_, ?_, ?_, ?_⟩
  · cases saveOk with
    | true => rw [hps, afterLedger_saveOk]
    | false => rw [hps, afterLedger_saveFail]
  · intro hsk
    subst hsk
    rw [hps, afterLedger_saveOk]
    show findTeacher (saveTeacher s.teachers (updatedTeacher t desired now)) tid = _
    have hfind' : findTeacher s.teachers (updatedTeacher t desired now).id = some t := by
      rw [hid']; exact hfind
    have hsave := findTeacher_saveTeacher s.teachers t (updatedTeacher t desired now) hfind'
    rw [hid'] at hsave
    exact hsave
  · intro hd
    subst hd
    rfl
  · intro hd
    subst hd
    rfl

/-- C4 witness: the amended statement at the concrete repeated upward call of
the counterexample. -/
theorem C4_witness :
    (putStatus storeU1 3 true 100 true true).store.records = storeU1.records ∧
    findTeacher (putStatus storeU1 3 true 100 true true).store.teachers 3
      = some (updatedTeacher teacherU1 true 100) ∧
    (updatedTeacher teacherU1 true 100).lastAvailableTimestamp = some 100 :=
  ⟨(C4_amended_idempotence storeU1 3 true 100 true true teacherU1 rfl rfl).1,
   (C4_amended_idempotence storeU1 3 true 100 true true teacherU1 rfl rfl).2.1 rfl,
   (C4_amended_idempotence storeU1 3 true 100 true true teacherU1 rfl rfl).2.2.2 rfl⟩

/-- Sample teacher whose recorded session start (5000) lies in the future of
the transition instant used below (3000), modelling clock skew. -/
def teacherSkew : Teacher :=
  { id := 2, name := "Bela", email := "bela@example.com", password := "secret",
    phone := "102", roomno := "R2", isAvailable := true,
    lastAvailableTimestamp := some 5000 }

/-- Sample store holding only `teacherSkew` and an empty ledger. -/
def storeSkew : Store := { teachers := [teacherSkew], records := [] }

/-- C3 counterexample: with clock skew (now = 3000 earlier than the session
start 5000), the downward transition commits -2 seconds to the ledger: the
committed value is negative, not clamped to 0 as the claim states. -/
theorem C3_counterexample :
    ledgerGet (putStatus storeSkew 2 false 3000 true true).store.records 2 (startOfDay 3000)
      = -2 ∧
    ¬ (0 ≤ ledgerGet (putStatus storeSkew 2 false 3000 true true).store.records 2
          (startOfDay 3000)) := by
  have h : ledgerGet (putStatus storeSkew 2 false 3000 true true).store.records 2
      (startOfDay 3000) = -2 := by
    simp [putStatus, storeSkew, teacherSkew, findTeacher, afterLedger, upsertInc,
      findRecord, recordKeyMatches, ledgerGet, sessionDuration, startOfDay, msPerDay,
      saveTeacher, incRecord, updatedTeacher]
    norm_num
  refine ⟨h, ?_⟩
  rw [h]
  norm_num

/-- C3 amended: the delta committed on a downward transition equals
(now - lastAvailableTimestamp) / 1000 exactly, with no clamping: it is negative
whenever clock skew puts now before the session start, it is 0 for an immediate
re-toggle (now equal to the session start), and it is non-negative whenever the
session start is not after now. -/
theorem C3_unclamped_session_delta (s : Store) (tid : Nat) (now ts : Int)
    (t : Teacher)
    (hfind : findTeacher s.teachers tid = some t)
    (havail : t.isAvailable = true)
    (hts : t.lastAvailableTimestamp = some ts) :
    ledgerGet (putStatus s tid false now true true).store.records tid (startOfDay now)
      = ledgerGet s.records tid (startOfDay now) + sessionDuration now ts ∧
    (now < ts → sessionDuration now ts < 0) ∧
    (now = ts → sessionDuration now ts = 0) ∧
    (ts ≤ now → 0 ≤ sessionDuration now ts) := by
  have hg : (t.isAvailable && !false && t.lastAvailableTimestamp.isSome) = true := by
    simp [havail, hts]
  have hps := putStatus_ledgerPath s tid false now true t hfind hg
  rw [hts] at hps
  simp only [Option.getD_some] at hps
  rw [afterLedger_saveOk] at hps
  refine ⟨?_, ?_, ?_, ?_⟩
  · rw [hps]
    exact ledgerGet_upsertInc_self s.records tid (startOfDay now) (sessionDuration now ts)
  · intro hlt
    unfold sessionDuration
    have hneg : ((now - ts : Int) : Rat) < 0 := by
      rw [Int.cast_lt_zero]
      omega
    exact div_neg_of_neg_of_pos hneg (by norm_num)
  · intro heq
    subst heq
    simp [sessionDuration]
  · intro hle
    unfold sessionDuration
    have hpos : (0 : Rat) ≤ ((now - ts : Int) : Rat) := by
      rw [← Int.cast_zero, Int.cast_le]
      omega
    exact div_nonneg hpos (by norm_num)

/-- C3 witness: the amended statement evaluated at the skewed sample run, where
the committed delta is indeed negative. -/
theorem C3_witness :
    ledgerGet (putStatus storeSkew 2 false 3000 true true).store.records 2 (startOfDay 3000)
      = ledgerGet storeSkew.records 2 (startOfDay 3000) + sessionDuration 3000 5000 ∧
    sessionDuration 3000 5000 < 0 :=
  ⟨(C3_unclamped_session_delta storeSkew 2 3000 5000 teacherSkew rfl rfl rfl).1,
   (C3_unclamped_session_delta storeSkew 2 3000 5000 teacherSkew rfl rfl rfl).2.1
     (by decide)⟩

theorem afterLedger_records (s : Store) (desired : Bool) (now : Int)
    (saveOk : Bool) (t : Teacher) (recs : List TimeRecord) :
    (afterLedger s desired now saveOk t recs).store.records = recs := by
  cases saveOk with
  | true => rw [afterLedger_saveOk]
  | false => rw [afterLedger_saveFail]

/-- Sample teacher for the fractional-session run: available since instant 0. -/
def teacherF : Teacher :=
  { id := 4, name := "Mira", email := "mira@example.com", password := "secret",
    phone := "104", roomno := "R4", isAvailable := true,
    lastAvailableTimestamp := some 0 }

/-- Sample store holding only `teacherF` and an empty ledger. -/
def storeF : Store := { teachers := [teacherF], records := [] }

/-- Store after `teacherF` closes a 1.5-second session at instant 1500. -/
def storeF1 : Store := (putStatus storeF 4 false 1500 true true).store

/-- Store after `teacherF` turns available again at instant 5000. -/
def storeF2 : Store := (putStatus storeF1 4 true 5000 true true).store

/-- Store after `teacherF` closes the second session at the skewed instant
3000 (before its recorded start 5000). -/
def storeF3 : Store := (putStatus storeF2 4 false 3000 true true).store

/-- C6 counterexample: after a 1500 ms session the committed total is 3/2 -
not an integer - and after a subsequent clock-skewed downward transition the
total decreases from 3/2 to -1/2, violating integrality, non-negativity and
monotonicity within the day. -/
theorem C6_counterexample :
    ledgerGet storeF1.records 4 0 = 3 / 2 ∧
    ¬ (∃ n : Int, ledgerGet storeF1.records 4 0 = (n : Rat)) ∧
    ledgerGet storeF3.records 4 0 < ledgerGet storeF2.records 4 0 ∧
    ledgerGet storeF3.records 4 0 < 0 := by
  have h1 : ledgerGet storeF1.records 4 0 = 3 / 2 := by
    simp [storeF1, putStatus, storeF, teacherF, findTeacher, afterLedger, upsertInc,
      findRecord, recordKeyMatches, ledgerGet, sessionDuration, startOfDay, msPerDay,
      saveTeacher, incRecord, updatedTeacher]
    norm_num
  have h2 : ledgerGet storeF2.records 4 0 = 3 / 2 := by
    simp [storeF2, storeF1, putStatus, storeF, teacherF, findTeacher, afterLedger,
      upsertInc, findRecord, recordKeyMatches, ledgerGet, sessionDuration, startOfDay,
      msPerDay, saveTeacher, incRecord, updatedTeacher]
    norm_num
  have h3 : ledgerGet storeF3.records 4 0 = -(1 / 2) := by
    simp [storeF3, storeF2, storeF1, putStatus, storeF, teacherF, findTeacher,
      afterLedger, upsertInc, findRecord, recordKeyMatches, ledgerGet, sessionDuration,
      startOfDay, msPerDay, saveTeacher, incRecord, updatedTeacher]
    norm_num
  refine ⟨h1, ?_, ?_, ?_⟩
  · rw [h1]
    rintro ⟨n, hn⟩
    have hq : (3 : Rat) = 2 * (n : Rat) := by
      field_simp at hn
      linarith
    have hz : (3 : Int) = 2 * n := by exact_mod_cast hq
    omega
  · rw [h2, h3]
    norm_num
  · rw [h3]
    norm_num

/-- C6 amended: ledger totals are rationals rather than integers; record keys
(teacherId, day) stay pairwise distinct, records are modified only by a
downward transition with a session start present (lazy creation on the first
such transition), and totals are monotonically non-decreasing provided the
closed session's start is not after now - the no-clock-skew proviso without
which they can decrease and go negative, and integrality fails for sessions of
fractional seconds. -/
theorem C6_ledger_record_invariants (s : Store) (tid : Nat) (desired : Bool)
    (now : Int) (ledgerOk saveOk : Bool) (t : Teacher)
    (hkeys : keysUnique s.records)
    (hfind : findTeacher s.teachers tid = some t)
    (hnoskew : ∀ ts, t.lastAvailableTimestamp = some ts → ts ≤ now) :
    keysUnique (putStatus s tid desired now ledgerOk saveOk).store.records ∧
    (∀ tid2 day2, ledgerGet s.records tid2 day2
        ≤ ledgerGet (putStatus s tid desired now ledgerOk saveOk).store.records tid2 day2) ∧
    ((t.isAvailable && !desired && t.lastAvailableTimestamp.isSome) = false →
      (putStatus s tid desired now ledgerOk saveOk).store.records = s.records) := by
  by_cases hg : (t.isAvailable && !desired && t.lastAvailableTimestamp.isSome) = true
  · cases ledgerOk with
    | true =>
        have hps := putStatus_ledgerPath s tid desired now saveOk t hfind hg
        have hsome : t.lastAvailableTimestamp.isSome = true := by
          have hg' := hg
          simp only [Bool.and_eq_true] at hg'
          exact hg'.2
        obtain ⟨ts, hts⟩ := Option.isSome_iff_exists.mp hsome
        have hd : 0 ≤ sessionDuration now ts := by
          unfold sessionDuration
          have hc : (0 : Rat) ≤ ((now - ts : Int) : Rat) := by
            rw [← Int.cast_zero, Int.cast_le]
            have := hnoskew ts hts
            omega
          exact div_nonneg hc (by norm_num)
        have hthird : (t.isAvailable && !desired && t.lastAvailableTimestamp.isSome) = false →
            (putStatus s tid desired now true saveOk).store.records = s.records := by
          intro habs
          rw [habs] at hg
          exact absurd hg Bool.false_ne_true
        refine ⟨?_, ?_, hthird⟩
        · rw [hps, afterLedger_records, hts]
          simp only [Option.getD_some]
          exact keysUnique_upsertInc s.records tid (startOfDay now)
            (sessionDuration now ts) hkeys
        · intro tid2 day2
          rw [hps, afterLedger_records, hts]
          simp only [Option.getD_some]
          exact ledgerGet_upsertInc_mono s.records tid (startOfDay now)
            (sessionDuration now ts) hd tid2 day2
    | false =>
        have hps := putStatus_ledgerFailPath s tid desired now saveOk t hfind hg
        rw [hps]
        exact ⟨hkeys, fun tid2 day2 => le_refl _, fun _ => rfl⟩
  · simp only [Bool.not_eq_true] at hg
    have hps := putStatus_noLedgerPath s tid desired now ledgerOk saveOk t hfind hg
    rw [hps, afterLedger_records]
    exact ⟨hkeys, fun tid2 day2 => le_refl _, fun _ => rfl⟩

/-- C6 witness: the amended invariants evaluated on the sample downward
transition that closes a 2-second session against an empty ledger. -/
theorem C6_witness :
    keysUnique (putStatus storeA 1 false 2000 true true).store.records ∧
    ledgerGet storeA.records 1 (startOfDay 2000)
      ≤ ledgerGet (putStatus storeA 1 false 2000 true true).store.records 1 (startOfDay 2000) ∧
    ((teacherA.isAvailable && !false && teacherA.lastAvailableTimestamp.isSome) = false →
      (putStatus storeA 1 false 2000 true true).store.records = storeA.records) :=
  ⟨(C6_ledger_record_invariants storeA 1 false 2000 true true teacherA
      List.Pairwise.nil rfl
      (by intro ts hts
          simp only [teacherA, Option.some.injEq] at hts
          omega)).1,
   (C6_ledger_record_invariants storeA 1 false 2000 true true teacherA
      List.Pairwise.nil rfl
      (by intro ts hts
          simp only [teacherA, Option.some.injEq] at hts
          omega)).2.1 1 (startOfDay 2000),
   (C6_ledger_record_invariants storeA 1 false 2000 true true teacherA
      List.Pairwise.nil rfl
      (by intro ts hts
          simp only [teacherA, Option.some.injEq] at hts
          omega)).2.2⟩

/-- C7: the my-time route returns the committed total of today's record - 0
when no record exists; after closing a single session of D whole seconds with
no prior record for that day it returns exactly D; and an upward transition
(opening a session) never touches the ledger, so time accrued in a still-open
session is never included. -/
theorem C7_my_time_roundtrip (s : Store) (tid : Nat) (now ts : Int) (D : Nat)
    (t : Teacher)
    (hfind : findTeacher s.teachers tid = some t)
    (havail : t.isAvailable = true)
    (hts : t.lastAvailableTimestamp = some ts)
    (hnorec : findRecord s.records tid (startOfDay now) = none)
    (hD : now = ts + 1000 * (D : Int)) :
    getMyTime s tid now = 0 ∧
    getMyTime (putStatus s tid false now true true).store tid now = (D : Rat) ∧
    (∀ ledgerOk saveOk : Bool,
      (putStatus s tid true now ledgerOk saveOk).store.records = s.records) := by
  have hzero : getMyTime s tid now = 0 := by
    simp [getMyTime, ledgerGet, hnorec]
  have hval : sessionDuration now ts = (D : Rat) := by
    unfold sessionDuration
    rw [hD]
    have h1 : (ts + 1000 * (D : Int) - ts) = 1000 * (D : Int) := by ring
    rw [h1]
    push_cast
    field_simp
  refine ⟨hzero, ?_, ?_⟩
  · have hg : (t.isAvailable && !false && t.lastAvailableTimestamp.isSome) = true := by
      simp [havail, hts]
    have hps := putStatus_ledgerPath s tid false now true t hfind hg
    rw [hts] at hps
    simp only [Option.getD_some] at hps
    unfold getMyTime
    rw [hps, afterLedger_records, ledgerGet_upsertInc_self]
    unfold getMyTime at hzero
    rw [hzero, hval, zero_add]
  · intro ledgerOk saveOk
    have hg : (t.isAvailable && !true && t.lastAvailableTimestamp.isSome) = false := by
      simp
    have hps := putStatus_noLedgerPath s tid true now ledgerOk saveOk t hfind hg
    rw [hps, afterLedger_records]

/-- C7 witness: closing a 125-second session of the sample teacher against an
empty ledger makes the my-time route report exactly 125 seconds, and an upward
transition leaves the ledger untouched. -/
theorem C7_witness :
    getMyTime storeA 1 125000 = 0 ∧
    getMyTime (putStatus storeA 1 false 125000 true true).store 1 125000 = (125 : Rat) ∧
    (putStatus storeA 1 true 125000 true true).store.records = storeA.records :=
  ⟨(C7_my_time_roundtrip storeA 1 125000 0 125 teacherA rfl rfl rfl rfl
      (by norm_num)).1,
   (C7_my_time_roundtrip storeA 1 125000 0 125 teacherA rfl rfl rfl rfl
      (by norm_num)).2.1,
   (C7_my_time_roundtrip storeA 1 125000 0 125 teacherA rfl rfl rfl rfl
      (by norm_num)).2.2 true true⟩

theorem afterLedger_broadcast (s : Store) (desired : Bool) (now : Int)
    (saveOk : Bool) (t : Teacher) (recs : List TimeRecord) :
    ((afterLedger s desired now saveOk t recs).status = 200 →
      (afterLedger s desired now saveOk t recs).emits
        = [ServerEmit.statusUpdate
            ((afterLedger s desired now saveOk t recs).store.teachers.map viewOf)]) ∧
    ((afterLedger s desired now saveOk t recs).emits ≠ [] →
      (afterLedger s desired now saveOk t recs).status = 200 ∧ saveOk = true) ∧
    (saveOk = false → (afterLedger s desired now saveOk t recs).emits = []) := by
  cases saveOk with
  | true =>
      rw [afterLedger_saveOk]
      exact ⟨fun _ => rfl, fun _ => ⟨rfl, rfl⟩, fun h => by simp at h⟩
  | false =>
      rw [afterLedger_saveFail]
      exact ⟨fun h => by simp at h, fun h => absurd rfl h, fun _ => rfl⟩

/-- C8: a broadcast goes out exactly on success: when the route returns HTTP
200, the lone emitted event carries the full post-commit roster mapped through
the password-stripping view; any emission implies the save was acknowledged
(saveOk = true) and the call succeeded; a failing save emits nothing; and the
broadcast view is insensitive to the stored password. -/
theorem C8_broadcast_after_commit (s : Store) (tid : Nat) (desired : Bool)
    (now : Int) (ledgerOk saveOk : Bool) :
    ((putStatus s tid desired now ledgerOk saveOk).status = 200 →
      (putStatus s tid desired now ledgerOk saveOk).emits
        = [ServerEmit.statusUpdate
            ((putStatus s tid desired now ledgerOk saveOk).store.teachers.map viewOf)]) ∧
    ((putStatus s tid desired now ledgerOk saveOk).emits ≠ [] →
      (putStatus s tid desired now ledgerOk saveOk).status = 200 ∧ saveOk = true) ∧
    (saveOk = false → (putStatus s tid desired now ledgerOk saveOk).emits = []) ∧
    (∀ u : Teacher, ∀ p : String, viewOf { u with password := p } = viewOf u) := by
  cases hfind : findTeacher s.teachers tid with
  | none =>
      rw [putStatus_notFound s tid desired now ledgerOk saveOk hfind]
      exact ⟨fun h => by simp at h, fun h => absurd rfl h, fun _ => rfl,
        fun u p => rfl⟩
  | some t =>
      by_cases hg : (t.isAvailable && !desired && t.lastAvailableTimestamp.isSome) = true
      · cases ledgerOk with
        | true =>
            rw [putStatus_ledgerPath s tid desired now saveOk t hfind hg]
            exact ⟨(afterLedger_broadcast s desired now saveOk t _).1,
              (afterLedger_broadcast s desired now saveOk t _).2.1,
              (afterLedger_broadcast s desired now saveOk t _).2.2,
              fun u p => rfl⟩
        | false =>
            rw [putStatus_ledgerFailPath s tid desired now saveOk t hfind hg]
            exact ⟨fun h => by simp at h, fun h => absurd rfl h, fun _ => rfl,
              fun u p => rfl⟩
      · simp only [Bool.not_eq_true] at hg
        rw [putStatus_noLedgerPath s tid desired now ledgerOk saveOk t hfind hg]
        exact ⟨(afterLedger_broadcast s desired now saveOk t _).1,
          (afterLedger_broadcast s desired now saveOk t _).2.1,
          (afterLedger_broadcast s desired now saveOk t _).2.2,
          fun u p => rfl⟩

/-- C8 witness: a successful upward transition broadcasts the committed
post-save roster, a call with a failing save broadcasts nothing, and the view
of the sample teacher ignores its password. -/
theorem C8_witness :
    (putStatus storeA 1 true 50 true true).emits
      = [ServerEmit.statusUpdate
          ((putStatus storeA 1 true 50 true true).store.teachers.map viewOf)] ∧
    (putStatus storeA 1 true 50 true false).emits = [] ∧
    viewOf { teacherA with password := "other" } = viewOf teacherA :=
  ⟨(C8_broadcast_after_commit storeA 1 true 50 true true).1 rfl,
   (C8_broadcast_after_commit storeA 1 true 50 true false).2.2.1 rfl,
   (C8_broadcast_after_commit storeA 1 true 50 true true).2.2.2 teacherA "other"⟩

/-- C9 counterexample: at a store whose roster is non-empty, the connection
handler emits nothing to the connecting client - no statusUpdate, no roster
snapshot - contradicting the claim that every first connection receives the
current roster directly. -/
theorem C9_counterexample :
    onConnectionEmits storeA = [] ∧
    listTeachersRoute storeA = [viewOf teacherA] :=
  ⟨rfl, rfl⟩

/-- C9 amended: on a client's first connection the server sends it no message
over the socket (the handler only installs joinRoom and disconnect listeners);
the current roster is obtained instead from the HTTP roster route, which
returns every stored teacher through the password-stripping view. -/
theorem C9_no_snapshot_on_connect (s : Store) :
    onConnectionEmits s = [] ∧
    listTeachersRoute s = s.teachers.map viewOf ∧
    (∀ rooms : List (Nat × Nat), ∀ socketId tid : Nat,
      joinRoom rooms socketId tid = (socketId, tid) :: rooms) :=
  ⟨rfl, rfl, fun _ _ _ => rfl⟩

end TeacherApp
